import Mathlib

/-!
Shallow embedding of the ORCA input-file generator plugin
(`moleditpy_plugin/orca_xyz2inp_gui.py`).

Text is modelled as `List Char`; Python string operations (`strip`,
`split`, `join`, f-string interpolation of integers) are embedded as
executable functions on character lists.  The generation routine
`OrcaInputDialog.generate_file` is embedded as the pure function
`generate`, which returns the exact file content written on success and
an error value when the routine returns early without writing.  The
default-loading routine `OrcaInputDialog.load_defaults` is embedded as
`load_defaults` over a widget-state record; spin-box assignment clamps
to the widget range, following the documented Qt `QSpinBox.setValue`
semantics (the value is corrected to the nearest bound of the range set
in `setup_ui`).
-/

/-- Text is a list of characters. -/
abbrev Str := List Char

/-- The ASCII whitespace characters recognised by Python's `str.strip()`
(space, tab, newline, carriage return, vertical tab, form feed). -/
def isPySpace (c : Char) : Bool :=
  c = ' ' || c = '\t' || c = '\n' || c = '\r' || c = Char.ofNat 11 || c = Char.ofNat 12

/-- Python `str.lstrip()` over ASCII text. -/
def lstrip (s : Str) : Str := s.dropWhile isPySpace

/-- Python `str.rstrip()` over ASCII text. -/
def rstrip (s : Str) : Str := (s.reverse.dropWhile isPySpace).reverse

/-- Python `str.strip()` over ASCII text. -/
def strip (s : Str) : Str := rstrip (lstrip s)

/-- Python `s.split(chr(10))`: splitting on the newline separator; the
result is always non-empty, and splitting the empty string yields one
empty field, exactly as in Python. -/
def splitLines : Str → List Str
  | [] => [[]]
  | c :: cs =>
    let rest := splitLines cs
    if c = '\n' then [] :: rest
    else (c :: rest.headD []) :: rest.tail

/-- Python `sep.join(lines)` with the newline separator. -/
def joinLines : List Str → Str
  | [] => []
  | [l] => l
  | l :: l' :: ls => l ++ '\n' :: joinLines (l' :: ls)

/-- The character for a decimal digit value. -/
def digitChar (d : Nat) : Char := Char.ofNat (48 + d % 10)

/-- Recogniser for ASCII decimal digits. -/
def isDigitChar (c : Char) : Bool := 48 ≤ c.toNat && c.toNat ≤ 57

/-- Decimal digit string of a natural number, fuel-indexed so that the
recursion is structural. -/
def natToStrAux : Nat → Nat → Str
  | 0, _ => []
  | fuel + 1, n =>
    if n < 10 then [digitChar n]
    else natToStrAux fuel (n / 10) ++ [digitChar (n % 10)]

/-- Python `str(n)` for a non-negative integer. -/
def natToStr (n : Nat) : Str := natToStrAux (n + 1) n

/-- Python `str(i)` for an integer (f-string interpolation of an `int`). -/
def intToStr (i : Int) : Str :=
  if i < 0 then '-' :: natToStr i.natAbs else natToStr i.natAbs

/-- Left-pad a digit string with zeros to six places. -/
def pad6 (s : Str) : Str := List.replicate (6 - s.length) '0' ++ s

/-- Fixed-point rendering of a coordinate held in micro-angstrom units,
with six digits after the decimal point.  This is the serialisation used
by the modelled external coordinate writer (see `molToXYZBlock`). -/
def fmt6 (v : Int) : Str :=
  (if v < 0 then ['-'] else []) ++
    natToStr (v.natAbs / 1000000) ++
    '.' :: pad6 (natToStr (v.natAbs % 1000000))

/-- An atom of the host-application molecule: an element symbol, three
coordinate components in micro-angstrom units, and the RDKit
radical-electron count of the atom. -/
structure Atom where
  symbol : Str
  x : Int
  y : Int
  z : Int
  numRadicalElectrons : Nat
deriving DecidableEq

/-- The host-application molecule, consumed through the narrow
capabilities the plugin uses: formal charge, the atom list in native
order (element symbols, coordinates, radical electrons), and the name
used as the comment line of the XYZ serialisation. -/
structure Molecule where
  atoms : List Atom
  formalCharge : Int
  name : Str
deriving DecidableEq

/-- Total radical-electron count, as summed in `load_defaults`. -/
def radicalElectronCount (m : Molecule) : Nat :=
  (m.atoms.map (fun a => a.numRadicalElectrons)).sum

/-- A molecule whose textual fields contain no newline, as produced by
the host chemistry library (element symbols and molecule names are
single-line). -/
def validMolecule (m : Molecule) : Prop :=
  '\n' ∉ m.name ∧ ∀ a ∈ m.atoms, '\n' ∉ a.symbol

instance (m : Molecule) : Decidable (validMolecule m) := by
  unfold validMolecule; infer_instance

/-- One atom line of the XYZ serialisation: element symbol and the three
coordinates, whitespace-delimited. -/
def atomLine (a : Atom) : Str :=
  a.symbol ++ ' ' :: (fmt6 a.x ++ ' ' :: (fmt6 a.y ++ ' ' :: fmt6 a.z))

/-- Modelled from the spec: the external `Chem.MolToXYZBlock` collaborator —
"convert the molecule to a standard whitespace-delimited coordinate block
(element + x + y + z per atom, one header line with atom count, one
comment line)", each line newline-terminated, coordinates in the
fixed-point format of the spec's round-trip example. -/
def molToXYZBlock (m : Molecule) : Str :=
  joinLines (natToStr m.atoms.length :: m.name :: m.atoms.map atomLine) ++ ['\n']

/-- The tool-comment line `# Generated by MoleditPy (ORCA xyz2inp GUI)`. -/
def headerLine : Str := "# Generated by MoleditPy (ORCA xyz2inp GUI)".toList

/-- The resource directive line, `%pal nprocs <n> end`. -/
def palLine (nprocs : Int) : Str :=
  "%pal nprocs ".toList ++ intToStr nprocs ++ " end".toList

/-- The memory directive line, `%MaxCore <m>`. -/
def maxCoreLine (maxcore : Int) : Str :=
  "%MaxCore ".toList ++ intToStr maxcore

/-- The coordinate-block opening line, `* xyz <charge> <mult>`. -/
def xyzHeader (charge mult : Int) : Str :=
  "* xyz ".toList ++ intToStr charge ++ ' ' :: intToStr mult

/-- The coordinate data of `generate_file`: the XYZ block is stripped and
split on newlines, and the first two lines (atom count and comment) are
skipped; when no more than two lines remain the data is empty. -/
def coords_data (m : Molecule) : Str :=
  let xyz_lines := splitLines (strip (molToXYZBlock m))
  if 2 < xyz_lines.length then joinLines (xyz_lines.drop 2) else []

/-- The exact file content written by `generate_file`: the concatenation
of the seven `out.write` calls. -/
def generatedDoc (t : Str) (m : Molecule) (charge mult nprocs maxcore : Int) : Str :=
  headerLine ++ '\n' ::
    (palLine nprocs ++ '\n' ::
      (maxCoreLine maxcore ++ '\n' :: '\n' ::
        (strip t ++ '\n' :: '\n' ::
          (xyzHeader charge mult ++ '\n' ::
            (coords_data m ++ '\n' :: '*' :: ['\n'])))))

/-- The early-return error cases of `generate_file`: missing/empty
template path, and missing molecule. -/
inductive GenError where
  | templateNotFound
  | noMolecule
deriving DecidableEq

/-- Embedding of `OrcaInputDialog.generate_file`.  `template` is the
content of the template file, `none` when the template path is empty or
does not resolve to an existing file; `mol` is the current molecule,
`none` when absent.  On success the result carries the exact content of
the single file written; on error the routine returns before any write,
so no content is produced. -/
def generate (template : Option Str) (mol : Option Molecule)
    (charge mult nprocs maxcore : Int) : Except GenError Str :=
  match template with
  | none => .error .templateNotFound
  | some t =>
    match mol with
    | none => .error .noMolecule
    | some m => .ok (generatedDoc t m charge mult nprocs maxcore)

/-- Qt `QSpinBox.setValue` semantics: the assigned value is corrected to
the nearest bound of the declared range. -/
def clamp (lo hi v : Int) : Int :=
  if v < lo then lo else if hi < v then hi else v

/-- The four spin-box values of the dialog. -/
structure Widgets where
  charge : Int
  mult : Int
  nprocs : Int
  maxcore : Int
deriving DecidableEq

/-- The initial widget values set in `setup_ui`. -/
def initialWidgets : Widgets :=
  { charge := 0, mult := 1, nprocs := 1, maxcore := 1000 }

/-- Decimal digit value of a character, when it is a digit. -/
def digitVal (c : Char) : Option Nat :=
  if 48 ≤ c.toNat ∧ c.toNat ≤ 57 then some (c.toNat - 48) else none

/-- Digit-part parser of Python `int(...)`: digits with optional single
underscores between digits, accumulating the value. -/
def pyDigitsAux : Str → Nat → Option Nat
  | [], acc => some acc
  | '_' :: c :: cs, acc =>
    match digitVal c with
    | some d => pyDigitsAux cs (acc * 10 + d)
    | none => none
  | ['_'], _ => none
  | c :: cs, acc =>
    match digitVal c with
    | some d => pyDigitsAux cs (acc * 10 + d)
    | none => none

/-- Digit-part parser entry: at least one leading digit. -/
def pyDigits : Str → Option Nat
  | [] => none
  | c :: cs =>
    match digitVal c with
    | some d => pyDigitsAux cs d
    | none => none

/-- Model of Python `int(s)` on ASCII base-10 strings: surrounding
whitespace is ignored, an optional sign precedes a non-empty digit
string with optional single underscores between digits; anything else
raises `ValueError`, modelled as `none`. -/
def pyInt (s : Str) : Option Int :=
  match strip s with
  | '+' :: rest => (pyDigits rest).map (fun n => (n : Int))
  | '-' :: rest => (pyDigits rest).map (fun n => -(n : Int))
  | rest => (pyDigits rest).map (fun n => (n : Int))

/-- The two environment-style overrides read by `load_defaults`:
`orca_xyz2inp_nprocs` and `orca_xyz2inp_maxcore`, each `none` when the
variable is unset. -/
structure Env where
  nprocsVar : Option Str
  maxcoreVar : Option Str

/-- The nprocs override step of `load_defaults`: a present, well-formed
integer string is assigned to the spin box (clamped to 1..128); a
malformed value raises `ValueError`, which is caught and ignored. -/
def applyNprocs (w : Widgets) (v : Option Str) : Widgets :=
  match v with
  | none => w
  | some s =>
    match pyInt s with
    | none => w
    | some n => { w with nprocs := clamp 1 128 n }

/-- The maxcore override step of `load_defaults`, clamped to
100..100000; malformed values are ignored. -/
def applyMaxcore (w : Widgets) (v : Option Str) : Widgets :=
  match v with
  | none => w
  | some s =>
    match pyInt s with
    | none => w
    | some n => { w with maxcore := clamp 100 100000 n }

/-- The charge/multiplicity estimation step of `load_defaults`: when a
molecule is present, the formal charge is assigned to the charge box
(range -10..10) and the radical-electron count plus one to the
multiplicity box (range 1..10). -/
def applyMol (w : Widgets) (mol : Option Molecule) : Widgets :=
  match mol with
  | none => w
  | some m =>
    { w with
      charge := clamp (-10) 10 m.formalCharge,
      mult := clamp 1 10 ((radicalElectronCount m : Int) + 1) }

/-- Embedding of `OrcaInputDialog.load_defaults`: starting from the
`setup_ui` values, apply the two environment overrides, then the
molecule-derived charge and multiplicity. -/
def load_defaults (env : Env) (mol : Option Molecule) : Widgets :=
  applyMol (applyMaxcore (applyNprocs initialWidgets env.nprocsVar) env.maxcoreVar) mol

/-! ### Line-splitting lemmas -/

theorem splitLines_ne_nil (s : Str) : splitLines s ≠ [] := by
  cases s with
  | nil => simp [splitLines]
  | cons c cs =>
    simp only [splitLines]
    split <;> simp

theorem splitLines_newline_cons (b : Str) : splitLines ('\n' :: b) = [] :: splitLines b := by
  simp [splitLines]

theorem splitLines_append_newline (a b : Str) :
    splitLines (a ++ '\n' :: b) = splitLines a ++ splitLines b := by
  induction a with
  | nil => simp [splitLines]
  | cons c cs ih =>
    by_cases hc : c = '\n'
    · subst hc
      simp only [List.cons_append, splitLines_newline_cons, ih, List.cons_append]
    · simp only [List.cons_append, splitLines, if_neg hc]
      have hne := splitLines_ne_nil cs
      cases h : splitLines cs with
      | nil => exact absurd h hne
      | cons l ls => simp [ih, h]

theorem splitLines_eq_singleton {s : Str} (h : '\n' ∉ s) : splitLines s = [s] := by
  induction s with
  | nil => simp [splitLines]
  | cons c cs ih =>
    simp only [List.mem_cons, not_or] at h
    simp [splitLines, Ne.symm h.1, ih h.2]

theorem length_splitLines (s : Str) : (splitLines s).length = s.count '\n' + 1 := by
  induction s with
  | nil => simp [splitLines]
  | cons c cs ih =>
    by_cases hc : c = '\n'
    · subst hc
      simp [splitLines, ih, List.count_cons]
    · have hne := splitLines_ne_nil cs
      simp only [splitLines, if_neg hc]
      cases h : splitLines cs with
      | nil => exact absurd h hne
      | cons l ls =>
        have : (cs.count '\n' + 1) = ls.length + 1 := by rw [← ih, h]; simp
        simp only [List.headD, List.tail, List.length_cons]
        rw [List.count_cons]
        simp only [beq_iff_eq, hc, if_false]
        omega

theorem joinLines_cons (l : Str) {ls : List Str} (h : ls ≠ []) :
    joinLines (l :: ls) = l ++ '\n' :: joinLines ls := by
  cases ls with
  | nil => exact absurd rfl h
  | cons l' ls' => rfl

theorem splitLines_joinLines {ls : List Str} (hne : ls ≠ [])
    (h : ∀ l ∈ ls, '\n' ∉ l) : splitLines (joinLines ls) = ls := by
  induction ls with
  | nil => exact absurd rfl hne
  | cons l ls ih =>
    cases ls with
    | nil =>
      simp only [joinLines]
      exact splitLines_eq_singleton (h l (by simp))
    | cons l' ls' =>
      rw [joinLines_cons l (by simp), splitLines_append_newline,
        splitLines_eq_singleton (h l (by simp)),
        ih (by simp) (fun x hx => h x (List.mem_cons_of_mem _ hx))]
      simp

/-! ### Stripping lemmas -/

theorem lstrip_cons_of_not_space {c : Char} (s : Str) (h : isPySpace c = false) :
    lstrip (c :: s) = c :: s := by
  simp [lstrip, List.dropWhile_cons, h]

theorem rstrip_append_space {c : Char} (x : Str) (h : isPySpace c = true) :
    rstrip (x ++ [c]) = rstrip x := by
  simp [rstrip, List.dropWhile_cons, h]

theorem rstrip_append_not_space {c : Char} (x : Str) (h : isPySpace c = false) :
    rstrip (x ++ [c]) = x ++ [c] := by
  simp [rstrip, List.dropWhile_cons, h]

theorem count_rstrip_le (c : Char) (s : Str) : (rstrip s).count c ≤ s.count c := by
  unfold rstrip
  rw [List.count_reverse]
  calc (s.reverse.dropWhile isPySpace).count c
      ≤ s.reverse.count c :=
        ((List.dropWhile_suffix isPySpace).sublist).count_le c
    _ = s.count c := List.count_reverse c s

/-! ### Digit-character lemmas -/

theorem isDigitChar_digitChar (d : Nat) : isDigitChar (digitChar d) = true := by
  have h : d % 10 < 10 := Nat.mod_lt _ (by norm_num)
  unfold digitChar
  set k := d % 10 with hk
  interval_cases k <;> decide

theorem toNat_of_isDigitChar {c : Char} (h : isDigitChar c = true) :
    48 ≤ c.toNat ∧ c.toNat ≤ 57 := by
  simpa [isDigitChar] using h

theorem ne_of_isDigitChar {c x : Char} (h : isDigitChar c = true) (hx : x.toNat < 48) :
    c ≠ x := by
  intro he
  subst he
  exact absurd (toNat_of_isDigitChar h).1 (by omega)

theorem isPySpace_of_isDigitChar {c : Char} (h : isDigitChar c = true) :
    isPySpace c = false := by
  have h1 : c ≠ ' ' := ne_of_isDigitChar h (by decide)
  have h2 : c ≠ '\t' := ne_of_isDigitChar h (by decide)
  have h3 : c ≠ '\n' := ne_of_isDigitChar h (by decide)
  have h4 : c ≠ '\r' := ne_of_isDigitChar h (by decide)
  have h5 : c ≠ Char.ofNat 11 := ne_of_isDigitChar h (by decide)
  have h6 : c ≠ Char.ofNat 12 := ne_of_isDigitChar h (by decide)
  simp [isPySpace, h1, h2, h3, h4, h5, h6]

/-! ### Digit-string lemmas -/

theorem mem_natToStrAux {fuel n : Nat} {c : Char} (h : c ∈ natToStrAux fuel n) :
    isDigitChar c = true := by
  induction fuel generalizing n with
  | zero => simp [natToStrAux] at h
  | succ fuel ih =>
    simp only [natToStrAux] at h
    split at h
    · simp only [List.mem_singleton] at h
      subst h
      exact isDigitChar_digitChar n
    · rcases List.mem_append.mp h with h' | h'
      · exact ih h'
      · simp only [List.mem_singleton] at h'
        subst h'
        exact isDigitChar_digitChar _

theorem mem_natToStr {n : Nat} {c : Char} (h : c ∈ natToStr n) : isDigitChar c = true :=
  mem_natToStrAux h

theorem natToStr_ne_nil (n : Nat) : natToStr n ≠ [] := by
  unfold natToStr natToStrAux
  split <;> simp

theorem newline_not_mem_natToStr (n : Nat) : '\n' ∉ natToStr n := by
  intro h
  exact absurd (toNat_of_isDigitChar (mem_natToStr h)).1 (by decide)

theorem mem_intToStr {i : Int} {c : Char} (h : c ∈ intToStr i) :
    c = '-' ∨ isDigitChar c = true := by
  unfold intToStr at h
  split at h
  · rcases List.mem_cons.mp h with h' | h'
    · exact Or.inl h'
    · exact Or.inr (mem_natToStr h')
  · exact Or.inr (mem_natToStr h)

theorem newline_not_mem_intToStr (i : Int) : '\n' ∉ intToStr i := by
  intro h
  rcases mem_intToStr h with h' | h'
  · exact absurd h' (by decide)
  · exact absurd (toNat_of_isDigitChar h').1 (by decide)

theorem dot_not_mem_intToStr (i : Int) : '.' ∉ intToStr i := by
  intro h
  rcases mem_intToStr h with h' | h'
  · exact absurd h' (by decide)
  · exact absurd (toNat_of_isDigitChar h').1 (by decide)

theorem natToStr_concat (n : Nat) :
    ∃ p c, natToStr n = p ++ [c] ∧ isDigitChar c = true := by
  have hne := natToStr_ne_nil n
  exact ⟨(natToStr n).dropLast, (natToStr n).getLast hne,
    (List.dropLast_append_getLast hne).symm, mem_natToStr (List.getLast_mem hne)⟩

/-! ### Coordinate-formatting lemmas -/

theorem newline_not_mem_fmt6 (v : Int) : '\n' ∉ fmt6 v := by
  unfold fmt6 pad6
  intro h
  rcases List.mem_append.mp h with h1 | h2
  · rcases List.mem_append.mp h1 with h3 | h4
    · split at h3 <;> simp_all
    · exact newline_not_mem_natToStr _ h4
  · rcases List.mem_cons.mp h2 with h5 | h6
    · exact absurd h5 (by decide)
    · rcases List.mem_append.mp h6 with h7 | h8
      · exact absurd (List.eq_of_mem_replicate h7) (by decide)
      · exact newline_not_mem_natToStr _ h8

theorem dot_mem_fmt6 (v : Int) : '.' ∈ fmt6 v := by
  unfold fmt6
  simp

theorem fmt6_concat (v : Int) :
    ∃ p c, fmt6 v = p ++ [c] ∧ isDigitChar c = true := by
  obtain ⟨p, c, hp, hc⟩ := natToStr_concat (v.natAbs % 1000000)
  refine ⟨(if v < 0 then ['-'] else []) ++ natToStr (v.natAbs / 1000000) ++
    '.' :: (List.replicate (6 - (natToStr (v.natAbs % 1000000)).length) '0' ++ p), c, ?_, hc⟩
  conv_lhs => rw [fmt6, pad6, hp]
  rw [hp]
  simp [List.append_assoc]

/-! ### Atom-line lemmas -/

theorem newline_not_mem_atomLine {a : Atom} (h : '\n' ∉ a.symbol) :
    '\n' ∉ atomLine a := by
  unfold atomLine
  intro hm
  rcases List.mem_append.mp hm with h1 | h2
  · exact h h1
  · rcases List.mem_cons.mp h2 with h3 | h4
    · exact absurd h3 (by decide)
    · rcases List.mem_append.mp h4 with h5 | h6
      · exact newline_not_mem_fmt6 _ h5
      · rcases List.mem_cons.mp h6 with h7 | h8
        · exact absurd h7 (by decide)
        · rcases List.mem_append.mp h8 with h9 | h10
          · exact newline_not_mem_fmt6 _ h9
          · rcases List.mem_cons.mp h10 with h11 | h12
            · exact absurd h11 (by decide)
            · exact newline_not_mem_fmt6 _ h12

theorem dot_mem_atomLine (a : Atom) : '.' ∈ atomLine a := by
  unfold atomLine
  simp [dot_mem_fmt6]

theorem atomLine_concat (a : Atom) :
    ∃ p c, atomLine a = p ++ [c] ∧ isDigitChar c = true := by
  obtain ⟨p, c, hp, hc⟩ := fmt6_concat a.z
  refine ⟨a.symbol ++ ' ' :: (fmt6 a.x ++ ' ' :: (fmt6 a.y ++ ' ' :: p)), c, ?_, hc⟩
  conv_lhs => rw [atomLine, hp]
  simp [List.append_assoc]

/-! ### Directive-line lemmas -/

theorem newline_not_mem_headerLine : '\n' ∉ headerLine := by decide

theorem newline_not_mem_palLine (n : Int) : '\n' ∉ palLine n := by
  unfold palLine
  intro h
  rcases List.mem_append.mp h with h1 | h2
  · rcases List.mem_append.mp h1 with h3 | h4
    · exact absurd h3 (by decide)
    · exact newline_not_mem_intToStr n h4
  · exact absurd h2 (by decide)

theorem newline_not_mem_maxCoreLine (k : Int) : '\n' ∉ maxCoreLine k := by
  unfold maxCoreLine
  intro h
  rcases List.mem_append.mp h with h1 | h2
  · exact absurd h1 (by decide)
  · exact newline_not_mem_intToStr k h2

theorem newline_not_mem_xyzHeader (c mu : Int) : '\n' ∉ xyzHeader c mu := by
  unfold xyzHeader
  intro h
  rcases List.mem_append.mp h with h1 | h2
  · rcases List.mem_append.mp h1 with h3 | h4
    · exact absurd h3 (by decide)
    · exact newline_not_mem_intToStr c h4
  · rcases List.mem_cons.mp h2 with h5 | h6
    · exact absurd h5 (by decide)
    · exact newline_not_mem_intToStr mu h6

theorem dot_not_mem_palLine (n : Int) : '.' ∉ palLine n := by
  unfold palLine
  intro h
  rcases List.mem_append.mp h with h1 | h2
  · rcases List.mem_append.mp h1 with h3 | h4
    · exact absurd h3 (by decide)
    · exact dot_not_mem_intToStr n h4
  · exact absurd h2 (by decide)

theorem dot_not_mem_maxCoreLine (k : Int) : '.' ∉ maxCoreLine k := by
  unfold maxCoreLine
  intro h
  rcases List.mem_append.mp h with h1 | h2
  · exact absurd h1 (by decide)
  · exact dot_not_mem_intToStr k h2

theorem palLine_take2 (n : Int) : (palLine n).take 2 = ['%', 'p'] := rfl

theorem maxCoreLine_take2 (k : Int) : (maxCoreLine k).take 2 = ['%', 'M'] := rfl

theorem xyzHeader_take2 (c mu : Int) : (xyzHeader c mu).take 2 = ['*', ' '] := rfl

theorem palLine_ne_headerLine (n : Int) : palLine n ≠ headerLine := by
  intro h
  have h2 : (palLine n).take 2 = headerLine.take 2 := by rw [h]
  rw [palLine_take2] at h2
  exact absurd h2 (by decide)

theorem palLine_ne_maxCoreLine (n k : Int) : palLine n ≠ maxCoreLine k := by
  intro h
  have h2 : (palLine n).take 2 = (maxCoreLine k).take 2 := by rw [h]
  rw [palLine_take2, maxCoreLine_take2] at h2
  exact absurd h2 (by decide)

theorem palLine_ne_nil (n : Int) : palLine n ≠ [] := by
  intro h
  have h2 : (palLine n).take 2 = List.take 2 [] := by rw [h]
  rw [palLine_take2] at h2
  exact absurd h2 (by decide)

theorem palLine_ne_xyzHeader (n c mu : Int) : palLine n ≠ xyzHeader c mu := by
  intro h
  have h2 : (palLine n).take 2 = (xyzHeader c mu).take 2 := by rw [h]
  rw [palLine_take2, xyzHeader_take2] at h2
  exact absurd h2 (by decide)

theorem palLine_ne_star (n : Int) : palLine n ≠ ['*'] := by
  intro h
  have h2 : (palLine n).take 2 = List.take 2 ['*'] := by rw [h]
  rw [palLine_take2] at h2
  exact absurd h2 (by decide)

theorem palLine_ne_atomLine (n : Int) (a : Atom) : palLine n ≠ atomLine a := by
  intro h
  exact dot_not_mem_palLine n (h ▸ dot_mem_atomLine a)

theorem maxCoreLine_ne_headerLine (k : Int) : maxCoreLine k ≠ headerLine := by
  intro h
  have h2 : (maxCoreLine k).take 2 = headerLine.take 2 := by rw [h]
  rw [maxCoreLine_take2] at h2
  exact absurd h2 (by decide)

theorem maxCoreLine_ne_nil (k : Int) : maxCoreLine k ≠ [] := by
  intro h
  have h2 : (maxCoreLine k).take 2 = List.take 2 [] := by rw [h]
  rw [maxCoreLine_take2] at h2
  exact absurd h2 (by decide)

theorem maxCoreLine_ne_xyzHeader (k c mu : Int) : maxCoreLine k ≠ xyzHeader c mu := by
  intro h
  have h2 : (maxCoreLine k).take 2 = (xyzHeader c mu).take 2 := by rw [h]
  rw [maxCoreLine_take2, xyzHeader_take2] at h2
  exact absurd h2 (by decide)

theorem maxCoreLine_ne_star (k : Int) : maxCoreLine k ≠ ['*'] := by
  intro h
  have h2 : (maxCoreLine k).take 2 = List.take 2 ['*'] := by rw [h]
  rw [maxCoreLine_take2] at h2
  exact absurd h2 (by decide)

theorem maxCoreLine_ne_atomLine (k : Int) (a : Atom) : maxCoreLine k ≠ atomLine a := by
  intro h
  exact dot_not_mem_maxCoreLine k (h ▸ dot_mem_atomLine a)

/-! ### Structure of the stripped XYZ block -/

theorem joinLines_concat {ls : List Str} (hne : ls ≠ [])
    (h : ∀ l ∈ ls, ∃ p c, l = p ++ [c] ∧ isDigitChar c = true) :
    ∃ p c, joinLines ls = p ++ [c] ∧ isDigitChar c = true := by
  induction ls with
  | nil => exact absurd rfl hne
  | cons l ls ih =>
    cases ls with
    | nil => simpa [joinLines] using h l (by simp)
    | cons l' ls' =>
      obtain ⟨p, c, hp, hc⟩ := ih (by simp) (fun x hx => h x (List.mem_cons_of_mem _ hx))
      refine ⟨l ++ '\n' :: p, c, ?_, hc⟩
      rw [joinLines_cons _ (by simp), hp]
      simp

theorem strip_molToXYZBlock {m : Molecule} (hne : m.atoms ≠ []) :
    strip (molToXYZBlock m) =
      natToStr m.atoms.length ++ '\n' :: (m.name ++ '\n' :: joinLines (m.atoms.map atomLine)) := by
  have hals : m.atoms.map atomLine ≠ [] := by simpa using hne
  obtain ⟨p, d, hp, hd⟩ := joinLines_concat hals (fun l hl => by
    obtain ⟨a, _, rfl⟩ := List.mem_map.mp hl
    exact atomLine_concat a)
  obtain ⟨c0, cs, hcnt⟩ : ∃ c0 cs, natToStr m.atoms.length = c0 :: cs := by
    cases hc : natToStr m.atoms.length with
    | nil => exact absurd hc (natToStr_ne_nil _)
    | cons c0 cs => exact ⟨c0, cs, rfl⟩
  have hc0 : isPySpace c0 = false :=
    isPySpace_of_isDigitChar (mem_natToStr (hcnt ▸ List.mem_cons_self c0 cs))
  have hblock : molToXYZBlock m =
      (natToStr m.atoms.length ++
        '\n' :: (m.name ++ '\n' :: joinLines (m.atoms.map atomLine))) ++ ['\n'] := by
    unfold molToXYZBlock
    rw [joinLines_cons _ (List.cons_ne_nil _ _), joinLines_cons _ hals]
  rw [hblock]
  unfold strip
  have hl : lstrip ((natToStr m.atoms.length ++
      '\n' :: (m.name ++ '\n' :: joinLines (m.atoms.map atomLine))) ++ ['\n'])
      = (natToStr m.atoms.length ++
        '\n' :: (m.name ++ '\n' :: joinLines (m.atoms.map atomLine))) ++ ['\n'] := by
    rw [hcnt]
    rw [show ((c0 :: cs) ++ '\n' :: (m.name ++ '\n' :: joinLines (m.atoms.map atomLine))) ++ ['\n']
        = c0 :: ((cs ++ '\n' :: (m.name ++ '\n' :: joinLines (m.atoms.map atomLine))) ++ ['\n'])
        from by simp]
    rw [lstrip_cons_of_not_space _ hc0]
  rw [hl, rstrip_append_space _ (by decide)]
  have hkey : natToStr m.atoms.length ++ '\n' :: (m.name ++ '\n' :: joinLines (m.atoms.map atomLine))
      = (natToStr m.atoms.length ++ '\n' :: (m.name ++ '\n' :: p)) ++ [d] := by
    rw [hp]
    simp
  rw [hkey, rstrip_append_not_space _ (isPySpace_of_isDigitChar hd), ← hkey]

theorem xyz_lines_eq {m : Molecule} (hne : m.atoms ≠ []) (hv : validMolecule m) :
    splitLines (strip (molToXYZBlock m)) =
      natToStr m.atoms.length :: m.name :: m.atoms.map atomLine := by
  rw [strip_molToXYZBlock hne, splitLines_append_newline,
    splitLines_eq_singleton (newline_not_mem_natToStr _),
    splitLines_append_newline, splitLines_eq_singleton hv.1,
    splitLines_joinLines (by simpa using hne) (fun l hl => by
      obtain ⟨a, ha, rfl⟩ := List.mem_map.mp hl
      exact newline_not_mem_atomLine (hv.2 a ha))]
  simp

theorem coords_data_eq {m : Molecule} (hne : m.atoms ≠ []) (hv : validMolecule m) :
    coords_data m = joinLines (m.atoms.map atomLine) := by
  show (if 2 < (splitLines (strip (molToXYZBlock m))).length
    then joinLines ((splitLines (strip (molToXYZBlock m))).drop 2) else []) = _
  rw [xyz_lines_eq hne hv, if_pos (by
    simp only [List.length_cons, List.length_map]
    have := List.length_pos.mpr hne
    omega)]
  simp

theorem splitLines_coords_data {m : Molecule} (hne : m.atoms ≠ []) (hv : validMolecule m) :
    splitLines (coords_data m) = m.atoms.map atomLine := by
  rw [coords_data_eq hne hv]
  exact splitLines_joinLines (by simpa using hne) (fun l hl => by
    obtain ⟨a, ha, rfl⟩ := List.mem_map.mp hl
    exact newline_not_mem_atomLine (hv.2 a ha))

theorem coords_data_of_nil {m : Molecule} (h : m.atoms = []) (hname : '\n' ∉ m.name) :
    coords_data m = [] := by
  have hblock : molToXYZBlock m = ('0' :: '\n' :: m.name) ++ ['\n'] := by
    unfold molToXYZBlock
    rw [h]
    rfl
  have hstrip : strip (molToXYZBlock m) = rstrip ('0' :: '\n' :: m.name) := by
    rw [hblock]
    unfold strip
    rw [show ('0' :: '\n' :: m.name) ++ ['\n'] = '0' :: (('\n' :: m.name) ++ ['\n']) from by simp,
      lstrip_cons_of_not_space _ (by decide),
      show '0' :: (('\n' :: m.name) ++ ['\n']) = ('0' :: '\n' :: m.name) ++ ['\n'] from by simp,
      rstrip_append_space _ (by decide)]
  have hcount : (strip (molToXYZBlock m)).count '\n' ≤ 1 := by
    rw [hstrip]
    calc (rstrip ('0' :: '\n' :: m.name)).count '\n'
        ≤ ('0' :: '\n' :: m.name).count '\n' := count_rstrip_le _ _
      _ = 1 := by simp [List.count_cons, List.count_eq_zero.mpr hname]
  have hlen : (splitLines (strip (molToXYZBlock m))).length ≤ 2 := by
    rw [length_splitLines]
    omega
  show (if 2 < (splitLines (strip (molToXYZBlock m))).length
    then joinLines ((splitLines (strip (molToXYZBlock m))).drop 2) else []) = _
  rw [if_neg (by omega)]

/-! ### Structure of the generated document -/

theorem splitLines_generatedDoc (t : Str) (m : Molecule) (charge mult nprocs maxcore : Int) :
    splitLines (generatedDoc t m charge mult nprocs maxcore) =
      [headerLine, palLine nprocs, maxCoreLine maxcore, []] ++ splitLines (strip t) ++
        [[], xyzHeader charge mult] ++ splitLines (coords_data m) ++ [['*'], []] := by
  unfold generatedDoc
  simp only [splitLines_append_newline, splitLines_newline_cons]
  rw [splitLines_eq_singleton newline_not_mem_headerLine,
    splitLines_eq_singleton (newline_not_mem_palLine nprocs),
    splitLines_eq_singleton (newline_not_mem_maxCoreLine maxcore),
    splitLines_eq_singleton (newline_not_mem_xyzHeader charge mult),
    show splitLines ('*' :: ['\n']) = [['*'], []] from by decide]
  simp

/-- The fixed text preceding the template block in the generated
document. -/
def preTemplate (nprocs maxcore : Int) : Str :=
  headerLine ++ '\n' :: (palLine nprocs ++ '\n' :: (maxCoreLine maxcore ++ ['\n', '\n']))

/-- The fixed text following the template block in the generated
document. -/
def postTemplate (m : Molecule) (charge mult : Int) : Str :=
  '\n' :: '\n' :: (xyzHeader charge mult ++ '\n' :: (coords_data m ++ '\n' :: '*' :: ['\n']))

theorem generatedDoc_eq_pre_post (t : Str) (m : Molecule) (charge mult nprocs maxcore : Int) :
    generatedDoc t m charge mult nprocs maxcore =
      preTemplate nprocs maxcore ++ strip t ++ postTemplate m charge mult := by
  unfold generatedDoc preTemplate postTemplate
  simp [List.append_assoc]

theorem mem_splitLines_coords {m : Molecule} (hv : validMolecule m) {l : Str}
    (hl : l ∈ splitLines (coords_data m)) : l = [] ∨ ∃ a ∈ m.atoms, l = atomLine a := by
  by_cases ha : m.atoms = []
  · rw [coords_data_of_nil ha hv.1] at hl
    simp [splitLines] at hl
    exact Or.inl hl
  · rw [splitLines_coords_data ha hv] at hl
    obtain ⟨b, hb, rfl⟩ := List.mem_map.mp hl
    exact Or.inr ⟨b, hb, rfl⟩

theorem count_palLine_coords {m : Molecule} (hv : validMolecule m) (n : Int) :
    (splitLines (coords_data m)).count (palLine n) = 0 := by
  refine List.count_eq_zero.mpr (fun hmem => ?_)
  rcases mem_splitLines_coords hv hmem with h | ⟨a, _, h⟩
  · exact palLine_ne_nil n h
  · exact palLine_ne_atomLine n a h

theorem count_maxCoreLine_coords {m : Molecule} (hv : validMolecule m) (k : Int) :
    (splitLines (coords_data m)).count (maxCoreLine k) = 0 := by
  refine List.count_eq_zero.mpr (fun hmem => ?_)
  rcases mem_splitLines_coords hv hmem with h | ⟨a, _, h⟩
  · exact maxCoreLine_ne_nil k h
  · exact maxCoreLine_ne_atomLine k a h

/-! ### Widget-state lemmas -/

theorem clamp_lower {lo hi v : Int} (h : lo ≤ hi) : lo ≤ clamp lo hi v := by
  unfold clamp
  split
  · omega
  · split <;> omega

theorem clamp_upper {lo hi v : Int} (h : lo ≤ hi) : clamp lo hi v ≤ hi := by
  unfold clamp
  split
  · omega
  · split <;> omega

theorem load_defaults_fields (sN sM : Str) (vN vM : Int) (m : Molecule)
    (hN : pyInt sN = some vN) (hM : pyInt sM = some vM) :
    load_defaults ⟨some sN, some sM⟩ (some m) =
      { charge := clamp (-10) 10 m.formalCharge,
        mult := clamp 1 10 ((radicalElectronCount m : Int) + 1),
        nprocs := clamp 1 128 vN,
        maxcore := clamp 100 100000 vM } := by
  simp [load_defaults, applyNprocs, applyMaxcore, applyMol, hN, hM]

theorem load_defaults_malformed (sN sM : Str) (mol : Option Molecule)
    (hN : pyInt sN = none) (hM : pyInt sM = none) :
    (load_defaults ⟨some sN, some sM⟩ mol).nprocs = initialWidgets.nprocs ∧
    (load_defaults ⟨some sN, some sM⟩ mol).maxcore = initialWidgets.maxcore := by
  cases mol <;> simp [load_defaults, applyNprocs, applyMaxcore, applyMol, hN, hM]

theorem load_defaults_mult (env : Env) (m : Molecule) :
    (load_defaults env (some m)).mult = clamp 1 10 ((radicalElectronCount m : Int) + 1) := by
  obtain ⟨vn, vm⟩ := env
  unfold load_defaults
  cases vn with
  | none =>
    cases vm with
    | none => rfl
    | some s => cases h : pyInt s <;> simp [applyNprocs, applyMaxcore, applyMol, h]
  | some s =>
    cases h : pyInt s with
    | none =>
      cases vm with
      | none => simp [applyNprocs, applyMaxcore, applyMol, h]
      | some s' => cases h' : pyInt s' <;> simp [applyNprocs, applyMaxcore, applyMol, h, h']
    | some n =>
      cases vm with
      | none => simp [applyNprocs, applyMaxcore, applyMol, h]
      | some s' => cases h' : pyInt s' <;> simp [applyNprocs, applyMaxcore, applyMol, h, h']

/-! ### Concrete fixtures -/

/-- The water-fragment molecule of the spec's round-trip example:
an O atom at the origin and an H atom at (0.96, 0, 0). -/
def molC1 : Molecule :=
  { atoms := [ { symbol := "O".toList, x := 0, y := 0, z := 0, numRadicalElectrons := 0 },
               { symbol := "H".toList, x := 960000, y := 0, z := 0, numRadicalElectrons := 0 } ],
    formalCharge := 0, name := [] }

/-- The template text of the round-trip example. -/
def tmplC1 : Str := "! B3LYP def2-SVP".toList

/-- A template file content that is whitespace only, hence empty after
trimming. -/
def wsTemplate : Str := "   ".toList

/-- A molecule with zero atoms. -/
def emptyMol : Molecule := { atoms := [], formalCharge := 0, name := [] }

/-- A molecule carrying ten radical electrons on a single atom. -/
def radMol : Molecule :=
  { atoms := [ { symbol := "O".toList, x := 0, y := 0, z := 0, numRadicalElectrons := 10 } ],
    formalCharge := 0, name := [] }

/-! ### Claim theorems -/

/-- C1: for the concrete request with atoms O at (0,0,0) and H at
(0.96,0,0), charge 0, multiplicity 1, nprocs 4, maxcore 2000, and
template text `! B3LYP def2-SVP`, the generated document is exactly the
nine-line text of the spec: tool-comment line, %pal line, %MaxCore
line, blank, template line, blank, coordinate header, two atom lines,
closing marker (each line newline-terminated). -/
theorem c1_roundtrip_output :
    generate (some tmplC1) (some molC1) 0 1 4 2000 =
      .ok ("# Generated by MoleditPy (ORCA xyz2inp GUI)\n%pal nprocs 4 end\n%MaxCore 2000\n\n! B3LYP def2-SVP\n\n* xyz 0 1\nO 0.000000 0.000000 0.000000\nH 0.960000 0.000000 0.000000\n*\n").toList := by
  rfl

/-- C4: whenever the template path does not resolve to an existing file
(including the empty path), `generate_file` returns with
`TemplateNotFoundError` before the save dialog and before any file is
opened for writing, so no output content is produced for any molecule
and parameter values. -/
theorem c4_template_not_found (mol : Option Molecule) (charge mult nprocs maxcore : Int) :
    generate none mol charge mult nprocs maxcore = .error .templateNotFound := rfl

/-- C6: the template block rendered in the generated document is exactly
the input template text trimmed of leading and trailing whitespace,
inserted exactly once between fixed surrounding text that does not
depend on the template, with no internal modification. -/
theorem c6_template_verbatim (t : Str) (m : Molecule) (charge mult nprocs maxcore : Int) :
    generatedDoc t m charge mult nprocs maxcore =
      preTemplate nprocs maxcore ++ strip t ++ postTemplate m charge mult :=
  generatedDoc_eq_pre_post t m charge mult nprocs maxcore

/-- C3 counterexample: with a template file whose content is whitespace
only (empty after trimming), generation does not fail — there is no
`TemplateEmptyError` path in `generate_file` — and a document with an
empty template block is produced. -/
theorem c3_counterexample :
    generate (some wsTemplate) (some molC1) 0 1 4 2000 =
      .ok ("# Generated by MoleditPy (ORCA xyz2inp GUI)\n%pal nprocs 4 end\n%MaxCore 2000\n\n\n\n* xyz 0 1\nO 0.000000 0.000000 0.000000\nH 0.960000 0.000000 0.000000\n*\n").toList := by
  rfl

/-- C3 (amended): a template that exists but is empty after trimming is
accepted, and generation succeeds with an empty template block: the
document is the fixed prefix followed directly by the fixed suffix. -/
theorem c3_empty_template_accepted (t : Str) (m : Molecule)
    (charge mult nprocs maxcore : Int) (h : strip t = []) :
    generate (some t) (some m) charge mult nprocs maxcore =
      .ok (preTemplate nprocs maxcore ++ postTemplate m charge mult) := by
  show Except.ok (generatedDoc t m charge mult nprocs maxcore) = _
  rw [generatedDoc_eq_pre_post, h, List.append_nil]

/-- Witness for C3 (amended) at the whitespace template and the
round-trip molecule. -/
theorem c3_empty_template_accepted_witness :
    generate (some wsTemplate) (some molC1) 0 1 4 2000 =
      .ok (preTemplate 4 2000 ++ postTemplate molC1 0 1) :=
  c3_empty_template_accepted wsTemplate molC1 0 1 4 2000 (by decide)

/-- C5 counterexample: for the zero-atom molecule the generated document
does not place the closing marker immediately after the coordinate
header: line 6 is the header `* xyz 0 1`, line 7 is a blank line, and
only line 8 is the `*` marker. -/
theorem c5_counterexample :
    splitLines (generatedDoc tmplC1 emptyMol 0 1 4 2000) =
      [headerLine, palLine 4, maxCoreLine 2000, [], tmplC1, [],
        xyzHeader 0 1, [], ['*'], []] ∧
    (splitLines (generatedDoc tmplC1 emptyMol 0 1 4 2000))[6]? = some (xyzHeader 0 1) ∧
    (splitLines (generatedDoc tmplC1 emptyMol 0 1 4 2000))[7]? = some [] ∧
    (splitLines (generatedDoc tmplC1 emptyMol 0 1 4 2000))[8]? = some ['*'] := by
  decide

/-- C5 (amended): for every molecule with zero atoms (and a single-line
name), the coordinate block consists of the header line `* xyz <charge>
<mult>`, followed by exactly one blank line (the coordinate data is
empty but is still written with its trailing newline), followed by the
closing `*` marker. -/
theorem c5_empty_molecule (t : Str) (m : Molecule) (charge mult nprocs maxcore : Int)
    (h : m.atoms = []) (hname : '\n' ∉ m.name) :
    splitLines (generatedDoc t m charge mult nprocs maxcore) =
      [headerLine, palLine nprocs, maxCoreLine maxcore, []] ++ splitLines (strip t) ++
        [[], xyzHeader charge mult, [], ['*'], []] := by
  rw [splitLines_generatedDoc, coords_data_of_nil h hname]
  simp [splitLines]

/-- Witness for C5 (amended) at the zero-atom molecule. -/
theorem c5_empty_molecule_witness :
    splitLines (generatedDoc tmplC1 emptyMol 0 1 4 2000) =
      [headerLine, palLine 4, maxCoreLine 2000, []] ++ splitLines (strip tmplC1) ++
        [[], xyzHeader 0 1, [], ['*'], []] :=
  c5_empty_molecule tmplC1 emptyMol 0 1 4 2000 rfl (by decide)

/-- A template whose single line coincides with the %pal directive that
`generate_file` emits for nprocs = 4. -/
def tmplC2 : Str := "%pal nprocs 4 end".toList

/-- C2 counterexample: when the template text itself contains the line
`%pal nprocs 4 end`, the generated output contains that line twice, not
exactly once. -/
theorem c2_counterexample :
    (splitLines (generatedDoc tmplC2 molC1 0 1 4 2000)).count (palLine 4) = 2 := by
  decide

/-- C2 (amended): provided the trimmed template text contains no line
equal to the %pal or %MaxCore directive (and the molecule is
single-line-valid), the generated output contains exactly one
`%pal nprocs <n> end` line and exactly one `%MaxCore <m>` line, and its
first four lines are the tool comment, the %pal line, the %MaxCore line
and a blank — so both directives appear before the template block. -/
theorem c2_unique_directives (t : Str) (m : Molecule) (charge mult nprocs maxcore : Int)
    (hv : validMolecule m)
    (hp : palLine nprocs ∉ splitLines (strip t))
    (hk : maxCoreLine maxcore ∉ splitLines (strip t)) :
    (splitLines (generatedDoc t m charge mult nprocs maxcore)).count (palLine nprocs) = 1 ∧
    (splitLines (generatedDoc t m charge mult nprocs maxcore)).count (maxCoreLine maxcore) = 1 ∧
    (splitLines (generatedDoc t m charge mult nprocs maxcore)).take 4 =
      [headerLine, palLine nprocs, maxCoreLine maxcore, []] := by
  rw [splitLines_generatedDoc]
  refine ⟨?_, ?_, ?_⟩
  · simp only [List.count_append, List.count_eq_zero.mpr hp, count_palLine_coords hv nprocs]
    simp [List.count_cons, beq_iff_eq,
      palLine_ne_headerLine nprocs, Ne.symm (palLine_ne_headerLine nprocs),
      palLine_ne_maxCoreLine nprocs maxcore, Ne.symm (palLine_ne_maxCoreLine nprocs maxcore),
      palLine_ne_nil nprocs, Ne.symm (palLine_ne_nil nprocs),
      palLine_ne_xyzHeader nprocs charge mult, Ne.symm (palLine_ne_xyzHeader nprocs charge mult),
      palLine_ne_star nprocs, Ne.symm (palLine_ne_star nprocs)]
  · simp only [List.count_append, List.count_eq_zero.mpr hk, count_maxCoreLine_coords hv maxcore]
    simp [List.count_cons, beq_iff_eq,
      palLine_ne_maxCoreLine nprocs maxcore, Ne.symm (palLine_ne_maxCoreLine nprocs maxcore),
      maxCoreLine_ne_headerLine maxcore, Ne.symm (maxCoreLine_ne_headerLine maxcore),
      maxCoreLine_ne_nil maxcore, Ne.symm (maxCoreLine_ne_nil maxcore),
      maxCoreLine_ne_xyzHeader maxcore charge mult,
      Ne.symm (maxCoreLine_ne_xyzHeader maxcore charge mult),
      maxCoreLine_ne_star maxcore, Ne.symm (maxCoreLine_ne_star maxcore)]
  · rw [show ([headerLine, palLine nprocs, maxCoreLine maxcore, []] : List Str) ++
        splitLines (strip t) ++ [[], xyzHeader charge mult] ++
        splitLines (coords_data m) ++ [['*'], []]
        = [headerLine, palLine nprocs, maxCoreLine maxcore, []] ++
          (splitLines (strip t) ++ ([[], xyzHeader charge mult] ++
            (splitLines (coords_data m) ++ [['*'], []])))
        from by simp [List.append_assoc]]
    exact List.take_left [headerLine, palLine nprocs, maxCoreLine maxcore, []] _

/-- Witness for C2 (amended) at the round-trip template and molecule. -/
theorem c2_unique_directives_witness :
    (splitLines (generatedDoc tmplC1 molC1 0 1 4 2000)).count (palLine 4) = 1 ∧
    (splitLines (generatedDoc tmplC1 molC1 0 1 4 2000)).count (maxCoreLine 2000) = 1 ∧
    (splitLines (generatedDoc tmplC1 molC1 0 1 4 2000)).take 4 =
      [headerLine, palLine 4, maxCoreLine 2000, []] :=
  c2_unique_directives tmplC1 molC1 0 1 4 2000 (by decide) (by decide) (by decide)

/-- C9: for every non-empty, single-line-valid molecule, the coordinate
data is the serialised XYZ block with exactly its first two lines
discarded; its lines are precisely one line per atom in the molecule's
native order (no reordering, no deduplication), each beginning with the
atom's element symbol followed by the three coordinates. -/
theorem c9_coordinate_body (m : Molecule) (hne : m.atoms ≠ []) (hv : validMolecule m) :
    coords_data m = joinLines ((splitLines (strip (molToXYZBlock m))).drop 2) ∧
    splitLines (coords_data m) = m.atoms.map atomLine ∧
    (splitLines (coords_data m)).length = m.atoms.length ∧
    ∀ a ∈ m.atoms, atomLine a =
      a.symbol ++ ' ' :: (fmt6 a.x ++ ' ' :: (fmt6 a.y ++ ' ' :: fmt6 a.z)) := by
  refine ⟨?_, splitLines_coords_data hne hv, ?_, fun a _ => rfl⟩
  · rw [coords_data_eq hne hv, xyz_lines_eq hne hv]
    simp
  · rw [splitLines_coords_data hne hv, List.length_map]

/-- Witness for C9 at the round-trip molecule. -/
theorem c9_coordinate_body_witness :
    splitLines (coords_data molC1) = molC1.atoms.map atomLine ∧
    (splitLines (coords_data molC1)).length = molC1.atoms.length := by
  have h := c9_coordinate_body molC1 (by decide) (by decide)
  exact ⟨h.2.1, h.2.2.1⟩

/-- C7 counterexample: for a molecule with 10 radical electrons the
multiplicity loaded into the dialog is 10, not 10 + 1 = 11 — the
spin-box range 1..10 clamps the derived value. -/
theorem c7_counterexample :
    radicalElectronCount radMol = 10 ∧
    (load_defaults { nprocsVar := none, maxcoreVar := none } (some radMol)).mult = 10 ∧
    (load_defaults { nprocsVar := none, maxcoreVar := none } (some radMol)).mult ≠
      (radicalElectronCount radMol : Int) + 1 := by
  decide

/-- C7 (amended): for every molecule with r total radical electrons, the
default multiplicity suggested by the dialog is r + 1 clamped to the
spin-box maximum of 10 (that is, min (r + 1) 10), and is therefore
always ≥ 1. -/
theorem c7_suggested_multiplicity (env : Env) (m : Molecule) :
    (load_defaults env (some m)).mult = min ((radicalElectronCount m : Int) + 1) 10 ∧
    1 ≤ (load_defaults env (some m)).mult := by
  rw [load_defaults_mult, min_def]
  unfold clamp
  constructor <;> split_ifs <;> omega

/-- C8: a present but malformed environment override for the default
process count or per-core memory is silently ignored — the parse error
is swallowed and the built-in defaults (nprocs 1, maxcore 1000) are
kept; the embedding is a total function, so no error escapes. -/
theorem c8_malformed_override_ignored (sN sM : Str) (mol : Option Molecule)
    (hN : pyInt sN = none) (hM : pyInt sM = none) :
    (load_defaults { nprocsVar := some sN, maxcoreVar := some sM } mol).nprocs =
      initialWidgets.nprocs ∧
    (load_defaults { nprocsVar := some sN, maxcoreVar := some sM } mol).maxcore =
      initialWidgets.maxcore :=
  load_defaults_malformed sN sM mol hN hM

/-- Witness for C8 at two malformed override strings. -/
theorem c8_malformed_override_ignored_witness :
    (load_defaults { nprocsVar := some "abc".toList, maxcoreVar := some "12.5".toList }
      (some molC1)).nprocs = initialWidgets.nprocs ∧
    (load_defaults { nprocsVar := some "abc".toList, maxcoreVar := some "12.5".toList }
      (some molC1)).maxcore = initialWidgets.maxcore :=
  c8_malformed_override_ignored "abc".toList "12.5".toList (some molC1) (by decide) (by decide)

/-- A molecule whose derived charge (42) and multiplicity (12 + 1) both
exceed their widget ranges. -/
def clampMol : Molecule :=
  { atoms := [ { symbol := "O".toList, x := 0, y := 0, z := 0, numRadicalElectrons := 12 } ],
    formalCharge := 42, name := [] }

/-- C10: every value loaded into the parameter fields is clamped to the
widget's declared range: a well-formed environment override is clamped
to 1..128 (nprocs) or 100..100000 (maxcore) rather than ignored, the
molecule-derived formal charge is clamped to -10..10 and the derived
multiplicity to 1..10, and consequently all four loaded values lie
inside their declared bounds. -/
theorem c10_values_clamped (sN sM : Str) (vN vM : Int) (m : Molecule)
    (hN : pyInt sN = some vN) (hM : pyInt sM = some vM) :
    (load_defaults { nprocsVar := some sN, maxcoreVar := some sM } (some m)).nprocs =
      clamp 1 128 vN ∧
    (load_defaults { nprocsVar := some sN, maxcoreVar := some sM } (some m)).maxcore =
      clamp 100 100000 vM ∧
    (load_defaults { nprocsVar := some sN, maxcoreVar := some sM } (some m)).charge =
      clamp (-10) 10 m.formalCharge ∧
    (load_defaults { nprocsVar := some sN, maxcoreVar := some sM } (some m)).mult =
      clamp 1 10 ((radicalElectronCount m : Int) + 1) ∧
    1 ≤ (load_defaults { nprocsVar := some sN, maxcoreVar := some sM } (some m)).nprocs ∧
    (load_defaults { nprocsVar := some sN, maxcoreVar := some sM } (some m)).nprocs ≤ 128 ∧
    100 ≤ (load_defaults { nprocsVar := some sN, maxcoreVar := some sM } (some m)).maxcore ∧
    (load_defaults { nprocsVar := some sN, maxcoreVar := some sM } (some m)).maxcore ≤ 100000 ∧
    -10 ≤ (load_defaults { nprocsVar := some sN, maxcoreVar := some sM } (some m)).charge ∧
    (load_defaults { nprocsVar := some sN, maxcoreVar := some sM } (some m)).charge ≤ 10 ∧
    1 ≤ (load_defaults { nprocsVar := some sN, maxcoreVar := some sM } (some m)).mult ∧
    (load_defaults { nprocsVar := some sN, maxcoreVar := some sM } (some m)).mult ≤ 10 := by
  rw [load_defaults_fields sN sM vN vM m hN hM]
  refine ⟨rfl, rfl, rfl, rfl, ?_, ?_, ?_, ?_, ?_, ?_, ?_, ?_⟩
  · exact @clamp_lower 1 128 vN (by norm_num)
  · exact @clamp_upper 1 128 vN (by norm_num)
  · exact @clamp_lower 100 100000 vM (by norm_num)
  · exact @clamp_upper 100 100000 vM (by norm_num)
  · exact @clamp_lower (-10) 10 m.formalCharge (by norm_num)
  · exact @clamp_upper (-10) 10 m.formalCharge (by norm_num)
  · exact @clamp_lower 1 10 ((radicalElectronCount m : Int) + 1) (by norm_num)
  · exact @clamp_upper 1 10 ((radicalElectronCount m : Int) + 1) (by norm_num)

/-- Witness for C10: the out-of-range overrides 999 and 99 and the
out-of-range derived values 42 and 13 are clamped to the nearest bound
of their widget ranges. -/
theorem c10_values_clamped_witness :
    (load_defaults { nprocsVar := some "999".toList, maxcoreVar := some "99".toList }
      (some clampMol)).nprocs = 128 ∧
    (load_defaults { nprocsVar := some "999".toList, maxcoreVar := some "99".toList }
      (some clampMol)).maxcore = 100 ∧
    (load_defaults { nprocsVar := some "999".toList, maxcoreVar := some "99".toList }
      (some clampMol)).charge = 10 ∧
    (load_defaults { nprocsVar := some "999".toList, maxcoreVar := some "99".toList }
      (some clampMol)).mult = 10 := by
  have h := c10_values_clamped "999".toList "99".toList 999 99 clampMol (by decide) (by decide)
  exact ⟨h.1.trans (by decide), h.2.1.trans (by decide),
    h.2.2.1.trans (by decide), h.2.2.2.1.trans (by decide)⟩
